import Mathlib

/-!
Verification of the technical indicator computation engine and its frontend
consumers for the AI-Stock-analysis repository.

The engine itself (PriceSeries validation, IndicatorCalculator,
StatisticsSummarizer, AnalysisAssembler) is not present in the source
excerpt; only its output contract and consumers are.  Definitions for it are
therefore modelled from the specification (each such definition says so in
its doc comment).  The frontend functions `getStockInfo`
(apps/web/src/services/api.ts) and `getIndicatorStatus`
(apps/web/src/components/stocks/TechnicalIndicators.tsx) are embedded
directly from the TypeScript source.

Numbers are modelled as exact rationals (ℚ); the two standard-deviation
fields, which require a square root, are modelled as reals (ℝ).
-/

namespace StockAnalysis

/-- One OHLCV trading-period record.  Dates are modelled as naturals
(ordinal days); prices and volume as exact rationals. -/
structure PriceBar where
  date : Nat
  open_ : ℚ
  high : ℚ
  low : ℚ
  close : ℚ
  volume : ℚ
  deriving DecidableEq, Repr

/-- Company metadata, passed through unmodified (spec §6). -/
structure CompanyInfo where
  name : String
  ticker : String
  sector : String
  industry : String
  market_cap : ℚ
  fifty_two_week_high : ℚ
  fifty_two_week_low : ℚ
  deriving DecidableEq, Repr

/-- Modelled from the spec: the error taxonomy of §7 — `EmptyDataError`,
`InvalidBarError` (carrying the offending date), `DuplicateDateError`
(carrying the duplicated date). -/
inductive DataError where
  | emptyData : DataError
  | invalidBar : Nat → DataError
  | duplicateDate : Nat → DataError
  deriving DecidableEq, Repr

/-- Modelled from the spec: the per-bar structural invariant of §3,
`low <= open,close <= high`. -/
def barValid (b : PriceBar) : Prop :=
  b.low ≤ b.open_ ∧ b.open_ ≤ b.high ∧ b.low ≤ b.close ∧ b.close ≤ b.high

instance (b : PriceBar) : Decidable (barValid b) := by
  unfold barValid; infer_instance

/-- First element of the list that occurs again later, if any. -/
def findDup : List Nat → Option Nat
  | [] => none
  | d :: rest => if d ∈ rest then some d else findDup rest

instance : DecidableRel (fun a b : PriceBar => a.date ≤ b.date) :=
  fun a b => Nat.decLe a.date b.date

/-- Sort bars ascending by date, as §4.1 requires before acceptance. -/
def sortByDate (bars : List PriceBar) : List PriceBar :=
  List.insertionSort (fun a b => a.date ≤ b.date) bars

/-- Modelled from the spec: `validate(bars)` of §4.1.  Fails with
`EmptyDataError` on empty input, with `InvalidBarError` (offending date) if
some bar violates the low/high invariant, with `DuplicateDateError` if two
bars share a date; otherwise accepts the bars sorted ascending by date. -/
def validate (bars : List PriceBar) : Except DataError (List PriceBar) :=
  match bars with
  | [] => .error .emptyData
  | _ :: _ =>
    match bars.find? (fun b => !decide (barValid b)) with
    | some b => .error (.invalidBar b.date)
    | none =>
      match findDup (bars.map PriceBar.date) with
      | some d => .error (.duplicateDate d)
      | none => .ok (sortByDate bars)

/-! ### IndicatorCalculator (modelled from spec §4.2) -/

/-- Closing prices of a series, in order. -/
def closesOf (s : List PriceBar) : List ℚ :=
  s.map PriceBar.close

/-- The last `w` elements of a list (all of it when `w ≥ length`). -/
def lastN (w : Nat) (l : List ℚ) : List ℚ :=
  l.drop (l.length - w)

/-- Arithmetic mean of a list of rationals (0 on the empty list, since
`x / 0 = 0` in ℚ). -/
def mean (l : List ℚ) : ℚ :=
  l.sum / l.length

/-- Modelled from the spec: SMA(w) reported as one scalar — the arithmetic
mean of the last `min(w, length)` closes (§4.2, shrinking-window policy). -/
def smaLast (w : Nat) (c : List ℚ) : ℚ :=
  mean (lastN (min w c.length) c)

/-- Consecutive close-to-close deltas of a series. -/
def deltas : List ℚ → List ℚ
  | a :: b :: rest => (b - a) :: deltas (b :: rest)
  | _ => []

/-- Modelled from the spec: the RSI trailing window `min(period, length-1)`
with `period = 14` (§4.2). -/
def rsiWindow (c : List ℚ) : Nat :=
  min 14 (c.length - 1)

/-- Modelled from the spec: average gain over the trailing RSI window. -/
def avgGain (c : List ℚ) : ℚ :=
  ((lastN (rsiWindow c) (deltas c)).map (fun d => max d 0)).sum / (rsiWindow c)

/-- Modelled from the spec: average loss over the trailing RSI window. -/
def avgLoss (c : List ℚ) : ℚ :=
  ((lastN (rsiWindow c) (deltas c)).map (fun d => max (-d) 0)).sum / (rsiWindow c)

/-- Modelled from the spec: RSI(14) per §4.2 — `100 - 100/(1+RS)` with
`RS = avg_gain/avg_loss`; 100 when `avg_loss = 0`; the neutral sentinel
50.0 when fewer than 2 closes are available. -/
def rsi (c : List ℚ) : ℚ :=
  if c.length < 2 then 50
  else if avgLoss c = 0 then 100
  else 100 - 100 / (1 + avgGain c / avgLoss c)

/-- Modelled from the spec: exponential moving average with smoothing
factor `2/(n+1)`, seeded with the first close; shorter series simply smooth
over the available length (§4.2). -/
def ema (n : Nat) (c : List ℚ) : ℚ :=
  match c with
  | [] => 0
  | x :: rest => rest.foldl (fun acc v => acc + 2 / ((n : ℚ) + 1) * (v - acc)) x

/-- Modelled from the spec: MACD = EMA(12) − EMA(26) of closes (§4.2). -/
def macd (c : List ℚ) : ℚ :=
  ema 12 c - ema 26 c

/-- The trailing Bollinger window: last `min(20, length)` closes. -/
def bollWindow (c : List ℚ) : List ℚ :=
  lastN (min 20 c.length) c

/-- Modelled from the spec: sample variance of a window (0 for a window of
at most one element, where no deviation exists). -/
def sampleVar (l : List ℚ) : ℚ :=
  if l.length ≤ 1 then 0
  else (l.map (fun x => (x - mean l) ^ 2)).sum / ((l.length - 1 : Nat) : ℚ)

/-- Modelled from the spec: sample standard deviation of the trailing
Bollinger window (§4.2); a real since it is a square root. -/
noncomputable def bstd (c : List ℚ) : ℝ :=
  Real.sqrt (sampleVar (bollWindow c))

/-- The five Bollinger Band output fields (spec §3 and §6). -/
structure BollingerBands where
  upper : ℝ
  middle : ℝ
  lower : ℝ
  bandwidth : ℝ
  percent_b : ℝ

/-- Modelled from the spec: Bollinger Bands(period=20, k=2) of §4.2 —
`middle = SMA(20)`, `upper/lower = middle ± 2·std`,
`bandwidth = (upper-lower)/middle` guarded to 0 when `middle = 0`,
`percent_b = (last_close - lower)/(upper-lower)` guarded to 0.5 when
`upper = lower`. -/
noncomputable def bollinger (c : List ℚ) : BollingerBands :=
  let middle : ℝ := ((smaLast 20 c : ℚ) : ℝ)
  let s : ℝ := bstd c
  let upper : ℝ := middle + 2 * s
  let lower : ℝ := middle - 2 * s
  { upper := upper
    middle := middle
    lower := lower
    bandwidth := if middle = 0 then 0 else (upper - lower) / middle
    percent_b :=
      if upper = lower then 1 / 2
      else ((((c.getLast?).getD 0 : ℚ) : ℝ) - lower) / (upper - lower) }

/-- The technical-indicator output record (spec §3 and §6). -/
structure TechnicalIndicators where
  rsi : ℚ
  macd : ℚ
  sma_20 : ℚ
  sma_50 : ℚ
  sma_200 : ℚ
  bollinger_bands : BollingerBands

/-! ### StatisticsSummarizer (modelled from spec §4.3) -/

/-- Minimum of a list of rationals (0 on the empty list). -/
def minList (l : List ℚ) : ℚ :=
  match l with
  | [] => 0
  | x :: xs => xs.foldl min x

/-- Maximum of a list of rationals (0 on the empty list). -/
def maxList (l : List ℚ) : ℚ :=
  match l with
  | [] => 0
  | x :: xs => xs.foldl max x

/-- Ascending sort of a list of rationals. -/
def sortQ (l : List ℚ) : List ℚ :=
  List.insertionSort (fun a b => a ≤ b) l

/-- Median of a list of rationals: middle of the sorted list, or the mean
of the two middle elements for even length (0 on the empty list). -/
def median (l : List ℚ) : ℚ :=
  let s := sortQ l
  let n := s.length
  if n = 0 then 0
  else if n % 2 = 1 then (s.get? (n / 2)).getD 0
  else ((s.get? (n / 2 - 1)).getD 0 + (s.get? (n / 2)).getD 0) / 2

/-- Population variance of a list of rationals (0 on the empty list). -/
def popVar (l : List ℚ) : ℚ :=
  (l.map (fun x => (x - mean l) ^ 2)).sum / l.length

/-- Modelled from the spec: `std` of §4.3, the population standard
deviation of the closes; a real since it is a square root. -/
noncomputable def stdPop (l : List ℚ) : ℝ :=
  Real.sqrt (popVar l)

/-- The price-statistics output record (spec §3 and §6). -/
structure PriceStatistics where
  mean : ℚ
  std : ℝ
  min : ℚ
  max : ℚ
  median : ℚ

/-- Modelled from the spec: the StatisticsSummarizer of §4.3 — mean,
median, min, max of closes, and population standard deviation. -/
noncomputable def priceStatistics (c : List ℚ) : PriceStatistics :=
  { mean := StockAnalysis.mean c
    std := stdPop c
    min := minList c
    max := maxList c
    median := StockAnalysis.median c }

/-! ### AnalysisAssembler (modelled from spec §4.4) -/

/-- The assembled analysis output (spec §3 and §6). -/
structure AnalysisResult where
  company_info : CompanyInfo
  current_price : ℚ
  technical_indicators : TechnicalIndicators
  price_statistics : PriceStatistics
  historical_prices : List PriceBar

/-- Modelled from the spec: the computation step of `assemble` (§4.4) on
an already-validated series — indicators, statistics,
`current_price = last close`, company info and series passed through. -/
noncomputable def computeAnalysis (series : List PriceBar) (info : CompanyInfo) :
    AnalysisResult :=
  let c := closesOf series
  { company_info := info
    current_price := (c.getLast?).getD 0
    technical_indicators :=
      { rsi := rsi c
        macd := macd c
        sma_20 := smaLast 20 c
        sma_50 := smaLast 50 c
        sma_200 := smaLast 200 c
        bollinger_bands := bollinger c }
    price_statistics := priceStatistics c
    historical_prices := series }

/-- Modelled from the spec: `assemble(series, companyInfo)` of §4.4 —
validate (§4.1), then compute and bundle. -/
noncomputable def assemble (bars : List PriceBar) (info : CompanyInfo) :
    Except DataError AnalysisResult :=
  (validate bars).map (fun s => computeAnalysis s info)

/-! ### Frontend: getIndicatorStatus (TechnicalIndicators.tsx, lines 26–35) -/

inductive IndicatorType where
  | rsi : IndicatorType
  | macd : IndicatorType
  deriving DecidableEq, Repr

inductive IndicatorStatus where
  | neutral : IndicatorStatus
  | bullish : IndicatorStatus
  | bearish : IndicatorStatus
  deriving DecidableEq, Repr

/-- Embedded from `getIndicatorStatus` in TechnicalIndicators.tsx:
for RSI, `value >= 70` is bearish, `value <= 30` is bullish, else neutral;
for MACD, `value > 0` is bullish, `value < 0` is bearish, else neutral. -/
def getIndicatorStatus (value : ℚ) (type : IndicatorType) : IndicatorStatus :=
  match type with
  | .rsi =>
    if value ≥ 70 then .bearish
    else if value ≤ 30 then .bullish
    else .neutral
  | .macd =>
    if value > 0 then .bullish else if value < 0 then .bearish else .neutral

/-! ### Frontend: getStockInfo (api.ts, lines 77–134) -/

/-- The slice of the backend response body that `getStockInfo` reads
(interface `BackendResponse` in api.ts, field `analysis`). -/
structure BackendAnalysis where
  company_info : CompanyInfo
  current_price : ℚ
  historical_prices : List PriceBar
  ticker : String
  company_name : String
  volume : ℚ
  deriving DecidableEq, Repr

/-- The frontend model produced by `getStockInfo` (interface `StockData`
in api.ts); only the fields the mapping assigns are modelled. -/
structure StockData where
  symbol : String
  name : String
  price : ℚ
  change : ℚ
  changePercent : ℚ
  sector : String
  industry : String
  marketCap : ℚ
  fiftyTwoWeekHigh : ℚ
  fiftyTwoWeekLow : ℚ
  volume : ℚ
  avgVolume : ℚ
  deriving DecidableEq, Repr

/-- JavaScript array indexing `l[i]` with a possibly negative index:
`undefined` (here `none`) when out of range. -/
def jsIndex (l : List PriceBar) (i : Int) : Option PriceBar :=
  if i < 0 then none else l.get? i.toNat

/-- Embedded from `getStockInfo` in api.ts (lines 102–126): reads
`prices[prices.length - 1].close` and `prices[prices.length - 2].close`
without a length guard — accessing a property of `undefined` throws, which
is modelled as `none` — then maps the nested backend structure to the
frontend model. -/
def getStockInfo (a : BackendAnalysis) : Option StockData :=
  let prices := a.historical_prices
  match jsIndex prices ((prices.length : Int) - 1),
        jsIndex prices ((prices.length : Int) - 2) with
  | some lastBar, some prevBar =>
    let change := lastBar.close - prevBar.close
    some
      { symbol := a.ticker
        name := a.company_name
        price := a.current_price
        change := change
        changePercent := change / prevBar.close * 100
        sector := a.company_info.sector
        industry := a.company_info.industry
        marketCap := a.company_info.market_cap
        fiftyTwoWeekHigh := a.company_info.fifty_two_week_high
        fiftyTwoWeekLow := a.company_info.fifty_two_week_low
        volume := a.volume
        avgVolume := (prices.map PriceBar.volume).sum / prices.length }
  | _, _ => none

/-! ### Sample inputs used by the witnesses -/

/-- A structurally valid sample bar (date 1). -/
def sampleBar1 : PriceBar :=
  { date := 1, open_ := 10, high := 12, low := 9, close := 11, volume := 100 }

/-- A structurally valid sample bar (date 2). -/
def sampleBar2 : PriceBar :=
  { date := 2, open_ := 11, high := 13, low := 10, close := 12, volume := 150 }

/-- Sample company metadata. -/
def sampleInfo : CompanyInfo :=
  { name := "ACME", ticker := "ACM", sector := "Tech", industry := "Software"
    market_cap := 1000, fifty_two_week_high := 15, fifty_two_week_low := 5 }

/-- A sample backend analysis body with two historical bars. -/
def sampleAnalysis : BackendAnalysis :=
  { company_info := sampleInfo, current_price := 12
    historical_prices := [sampleBar1, sampleBar2]
    ticker := "ACM", company_name := "ACME", volume := 150 }

/-- A sample backend analysis body with a single historical bar. -/
def sampleAnalysisOneBar : BackendAnalysis :=
  { company_info := sampleInfo, current_price := 11
    historical_prices := [sampleBar1]
    ticker := "ACM", company_name := "ACME", volume := 100 }

/-! ### Helper lemmas -/

theorem findDup_eq_none_iff (l : List Nat) : findDup l = none ↔ l.Nodup := by
  induction l with
  | nil => simp [findDup]
  | cons d rest ih =>
    by_cases h : d ∈ rest <;> simp [findDup, h, ih]

theorem findDup_isSome_iff (l : List Nat) :
    (∃ d, findDup l = some d) ↔ ¬ l.Nodup := by
  rw [← findDup_eq_none_iff]
  cases h : findDup l <;> simp [h]

theorem avgGain_nonneg (c : List ℚ) : 0 ≤ avgGain c := by
  unfold avgGain
  apply div_nonneg _ (by positivity)
  apply List.sum_nonneg
  intro y hy
  simp only [List.mem_map] at hy
  obtain ⟨d, -, rfl⟩ := hy
  exact le_max_right d 0

theorem avgLoss_nonneg (c : List ℚ) : 0 ≤ avgLoss c := by
  unfold avgLoss
  apply div_nonneg _ (by positivity)
  apply List.sum_nonneg
  intro y hy
  simp only [List.mem_map] at hy
  obtain ⟨d, -, rfl⟩ := hy
  exact le_max_right (-d) 0

theorem validate_ok_eq (bars s : List PriceBar) (h : validate bars = .ok s) :
    s = sortByDate bars := by
  match bars with
  | [] => simp [validate] at h
  | b :: bs =>
    rw [validate] at h
    rcases hf : (b :: bs).find? (fun x => !decide (barValid x)) with _ | x <;>
      rw [hf] at h
    · rcases hd : findDup ((b :: bs).map PriceBar.date) with _ | d <;>
        rw [hd] at h
      · simpa using h.symm
      · simp at h
    · simp at h

/-! ### Claim theorems -/

/-- C10: `getIndicatorStatus` classifies with fixed thresholds — for RSI,
bearish iff `rsi ≥ 70`, bullish iff `rsi ≤ 30`, neutral otherwise; for
MACD, bullish iff `macd > 0`, bearish iff `macd < 0`, neutral iff
`macd = 0` (TechnicalIndicators.tsx lines 26–35). -/
theorem C10_getIndicatorStatus_thresholds (v : ℚ) :
    (getIndicatorStatus v .rsi = .bearish ↔ 70 ≤ v)
  ∧ (getIndicatorStatus v .rsi = .bullish ↔ v ≤ 30)
  ∧ (getIndicatorStatus v .rsi = .neutral ↔ 30 < v ∧ v < 70)
  ∧ (getIndicatorStatus v .macd = .bullish ↔ 0 < v)
  ∧ (getIndicatorStatus v .macd = .bearish ↔ v < 0)
  ∧ (getIndicatorStatus v .macd = .neutral ↔ v = 0) := by
  refine ⟨?_, ?_, ?_, ?_, ?_, ?_⟩ <;>
    simp only [getIndicatorStatus] <;>
    split_ifs with h1 h2 <;>
    simp_all <;>
    linarith

/-- C10 witness: concrete classifications at 75, 20, 50 for RSI and 1, -1,
0 for MACD. -/
theorem C10_witness :
    getIndicatorStatus 75 .rsi = .bearish
  ∧ getIndicatorStatus 20 .rsi = .bullish
  ∧ getIndicatorStatus 50 .rsi = .neutral
  ∧ getIndicatorStatus 1 .macd = .bullish
  ∧ getIndicatorStatus (-1) .macd = .bearish
  ∧ getIndicatorStatus 0 .macd = .neutral :=
  ⟨(C10_getIndicatorStatus_thresholds 75).1.2 (by norm_num),
   (C10_getIndicatorStatus_thresholds 20).2.1.2 (by norm_num),
   (C10_getIndicatorStatus_thresholds 50).2.2.1.2 (by norm_num),
   (C10_getIndicatorStatus_thresholds 1).2.2.2.1.2 (by norm_num),
   (C10_getIndicatorStatus_thresholds (-1)).2.2.2.2.1.2 (by norm_num),
   (C10_getIndicatorStatus_thresholds 0).2.2.2.2.2.2 rfl⟩

/-- C5: `assemble` is deterministic — identical inputs produce identical
outputs.  In this embedding `assemble` is a pure function, so determinism
and freedom from side effects are intrinsic; the theorem states the
congruence the spec demands. -/
theorem C5_assemble_deterministic (b1 b2 : List PriceBar)
    (i1 i2 : CompanyInfo) (hb : b1 = b2) (hi : i1 = i2) :
    assemble b1 i1 = assemble b2 i2 := by
  rw [hb, hi]

/-- C5 witness: determinism instantiated at a concrete series. -/
theorem C5_witness :
    assemble [sampleBar1, sampleBar2] sampleInfo
      = assemble [sampleBar1, sampleBar2] sampleInfo :=
  C5_assemble_deterministic [sampleBar1, sampleBar2] [sampleBar1, sampleBar2]
    sampleInfo sampleInfo rfl rfl

/-- C3: the reported SMA scalar is the arithmetic mean of the last
`min(w, n)` closes — the window shrinks to the series length and the
computation is total (never fails, never returns null). -/
theorem C3_sma_shrinking_window (w : Nat) (c : List ℚ) :
    smaLast w c = (lastN (min w c.length) c).sum / ((min w c.length : Nat) : ℚ)
  ∧ (lastN (min w c.length) c).length = min w c.length := by
  have hlen : (lastN (min w c.length) c).length = min w c.length := by
    simp only [lastN, List.length_drop]
    omega
  exact ⟨by rw [smaLast, mean, hlen], hlen⟩

/-- C3 witness: the spec scenario — period-3 SMA of
`[100, 102, 101, 105, 103]` is the mean of the last 3 closes, 103. -/
theorem C3_witness : smaLast 3 [100, 102, 101, 105, 103] = 103 := by
  rw [(C3_sma_shrinking_window 3 [100, 102, 101, 105, 103]).1]
  norm_num [lastN]

/-- C2: RSI always lies in [0, 100]; when the series has at least 2 closes
and the average loss over the trailing window is 0, RSI is exactly 100
(no division by zero); with fewer than 2 closes RSI is the neutral
sentinel 50. -/
theorem C2_rsi_bounds (c : List ℚ) :
    (0 ≤ rsi c ∧ rsi c ≤ 100)
  ∧ (2 ≤ c.length → avgLoss c = 0 → rsi c = 100)
  ∧ (c.length < 2 → rsi c = 50) := by
  unfold rsi
  split_ifs with h1 h2
  · exact ⟨by norm_num, fun hlen _ => by omega, fun _ => rfl⟩
  · exact ⟨by norm_num, fun _ _ => rfl, fun hlen => absurd hlen h1⟩
  · have hG : 0 ≤ avgGain c := avgGain_nonneg c
    have hL : 0 < avgLoss c := lt_of_le_of_ne (avgLoss_nonneg c) (Ne.symm h2)
    have hRS : 0 ≤ avgGain c / avgLoss c := div_nonneg hG hL.le
    have hpos : 0 < 100 / (1 + avgGain c / avgLoss c) :=
      div_pos (by norm_num) (by linarith)
    have hle : 100 / (1 + avgGain c / avgLoss c) ≤ 100 :=
      div_le_self (by norm_num) (by linarith)
    exact ⟨⟨by linarith, by linarith⟩,
      fun _ hz => absurd hz h2, fun hlen => absurd hlen h1⟩

/-- C2 witness: a two-close all-gain series has RSI exactly 100, and a
single-close series reports the neutral sentinel 50. -/
theorem C2_witness : rsi [1, 2] = 100 ∧ rsi [5] = 50 :=
  ⟨(C2_rsi_bounds [1, 2]).2.1 (by norm_num)
      (by norm_num [avgLoss, lastN, deltas, rsiWindow]),
   (C2_rsi_bounds [5]).2.2 (by norm_num)⟩

/-- C1: validate/assemble fails iff the input is structurally invalid —
`EmptyDataError` exactly on the empty list, `InvalidBarError` (carrying the
offending date) exactly when some bar violates `low ≤ open,close ≤ high`,
`DuplicateDateError` (given structurally valid bars) exactly when two bars
share a date, and every structurally valid series, however short, is
assembled without error. -/
theorem C1_validate_characterization (bars : List PriceBar) :
    (validate bars = .error .emptyData ↔ bars = [])
  ∧ ((∃ d, validate bars = .error (.invalidBar d)) ↔ ∃ b ∈ bars, ¬ barValid b)
  ∧ (∀ d, validate bars = .error (.invalidBar d) →
      ∃ b ∈ bars, ¬ barValid b ∧ b.date = d)
  ∧ ((∀ b ∈ bars, barValid b) →
      ((∃ d, validate bars = .error (.duplicateDate d)) ↔
        ¬ (bars.map PriceBar.date).Nodup))
  ∧ (bars ≠ [] → (∀ b ∈ bars, barValid b) → (bars.map PriceBar.date).Nodup →
      ∀ info, ∃ r, assemble bars info = .ok r) := by
  match bars with
  | [] =>
    refine ⟨by simp [validate], ?_, ?_, ?_, ?_⟩ <;> simp [validate]
  | b :: bs =>
    rcases hf : (b :: bs).find? (fun x => !decide (barValid x)) with _ | x
    · have hvalid : ∀ y ∈ b :: bs, barValid y := by
        intro y hy
        have := List.find?_eq_none.mp hf y hy
        simpa using this
      rcases hd : findDup ((b :: bs).map PriceBar.date) with _ | d0
      · have hok : validate (b :: bs) = .ok (sortByDate (b :: bs)) := by
          rw [validate, hf, hd]
        have hnodup : ((b :: bs).map PriceBar.date).Nodup :=
          (findDup_eq_none_iff _).mp hd
        refine ⟨by simp [hok], ?_, ?_, ?_, ?_⟩
        · rw [hok]
          constructor
          · rintro ⟨e, he⟩
            simp at he
          · rintro ⟨y, hy, hny⟩
            exact absurd (hvalid y hy) hny
        · intro e he
          rw [hok] at he
          simp at he
        · intro _
          rw [hok]
          constructor
          · rintro ⟨e, he⟩
            simp at he
          · intro hnd
            exact absurd hnodup hnd
        · intro _ _ _ info
          exact ⟨computeAnalysis (sortByDate (b :: bs)) info,
            by simp [assemble, hok, Except.map]⟩
      · have herr : validate (b :: bs) = .error (.duplicateDate d0) := by
          rw [validate, hf, hd]
        have hnotnodup : ¬ ((b :: bs).map PriceBar.date).Nodup := by
          rw [← findDup_eq_none_iff, hd]
          simp
        refine ⟨by simp [herr], ?_, ?_, ?_, ?_⟩
        · rw [herr]
          constructor
          · rintro ⟨e, he⟩
            simp at he
          · rintro ⟨y, hy, hny⟩
            exact absurd (hvalid y hy) hny
        · intro e he
          rw [herr] at he
          simp at he
        · intro _
          exact iff_of_true ⟨d0, herr⟩ hnotnodup
        · intro _ _ hnd _
          exact absurd hnd hnotnodup
    · have herr : validate (b :: bs) = .error (.invalidBar x.date) := by
        rw [validate, hf]
      have hx : ¬ barValid x := by
        have := List.find?_some hf
        simpa using this
      have hmem : x ∈ b :: bs := List.mem_of_find?_eq_some hf
      refine ⟨by simp [herr], ?_, ?_, ?_, ?_⟩
      · exact iff_of_true ⟨x.date, herr⟩ ⟨x, hmem, hx⟩
      · intro e he
        rw [herr] at he
        simp only [Except.error.injEq, DataError.invalidBar.injEq] at he
        exact ⟨x, hmem, hx, he⟩
      · intro hval
        exact absurd (hval x hmem) hx
      · intro _ hval _
        exact absurd (hval x hmem) hx

/-- C1 witness: a concrete two-bar valid series assembles successfully, and
the empty list fails with `EmptyDataError`. -/
theorem C1_witness :
    (∃ r, assemble [sampleBar1, sampleBar2] sampleInfo = .ok r)
  ∧ validate ([] : List PriceBar) = .error .emptyData :=
  ⟨(C1_validate_characterization [sampleBar1, sampleBar2]).2.2.2.2
      (by simp) (by decide) (by decide) sampleInfo,
   (C1_validate_characterization []).1.2 rfl⟩

/-- C4: every Bollinger division is guarded — if the middle band is 0 the
bandwidth is exactly 0, and if the band has zero width (`upper = lower`)
`percent_b` is exactly 0.5; in this exact-arithmetic embedding no NaN or
Infinity value exists to propagate. -/
theorem C4_bollinger_guards (c : List ℚ) :
    ((bollinger c).middle = 0 → (bollinger c).bandwidth = 0)
  ∧ ((bollinger c).upper = (bollinger c).lower → (bollinger c).percent_b = 1 / 2) := by
  constructor
  · intro h
    simp only [bollinger] at h ⊢
    rw [if_pos h]
  · intro h
    simp only [bollinger] at h ⊢
    rw [if_pos h]

/-- C4 witness: a zero-price series has middle band 0 and bandwidth 0, and
a constant series has a zero-width band and `percent_b = 0.5`. -/
theorem C4_witness :
    (bollinger [0]).bandwidth = 0 ∧ (bollinger [7, 7]).percent_b = 1 / 2 := by
  constructor
  · apply (C4_bollinger_guards [0]).1
    have h1 : (bollinger [0]).middle = ((smaLast 20 [0] : ℚ) : ℝ) := rfl
    have h2 : smaLast 20 [0] = 0 := by norm_num [smaLast, mean, lastN]
    rw [h1, h2]
    norm_num
  · apply (C4_bollinger_guards [7, 7]).2
    have hb : bstd [7, 7] = 0 := by
      have hv : sampleVar (bollWindow [7, 7]) = 0 := by
        norm_num [sampleVar, bollWindow, lastN, mean]
      rw [bstd, hv]
      simp
    have hu : (bollinger [7, 7]).upper
        = ((smaLast 20 [7, 7] : ℚ) : ℝ) + 2 * bstd [7, 7] := rfl
    have hl : (bollinger [7, 7]).lower
        = ((smaLast 20 [7, 7] : ℚ) : ℝ) - 2 * bstd [7, 7] := rfl
    rw [hu, hl, hb]
    ring

theorem foldl_min_replicate (x : ℚ) : ∀ m, (List.replicate m x).foldl min x = x
  | 0 => rfl
  | m + 1 => by
    rw [List.replicate_succ, List.foldl_cons, min_self]
    exact foldl_min_replicate x m

theorem foldl_max_replicate (x : ℚ) : ∀ m, (List.replicate m x).foldl max x = x
  | 0 => rfl
  | m + 1 => by
    rw [List.replicate_succ, List.foldl_cons, max_self]
    exact foldl_max_replicate x m

theorem mean_replicate (x : ℚ) (n : Nat) (hn : n ≠ 0) :
    mean (List.replicate n x) = x := by
  rw [mean, List.sum_replicate, nsmul_eq_mul, List.length_replicate]
  exact mul_div_cancel_left₀ x (by exact_mod_cast hn)

theorem sortQ_replicate (x : ℚ) (n : Nat) :
    sortQ (List.replicate n x) = List.replicate n x :=
  List.Sorted.insertionSort_eq (List.pairwise_replicate.2 (Or.inr le_rfl))

theorem get?_replicate_of_lt (x : ℚ) (n i : Nat) (h : i < n) :
    (List.replicate n x).get? i = some x := by
  rw [List.get?_eq_getElem?]
  simp [List.getElem?_replicate, h]

theorem median_replicate (x : ℚ) (n : Nat) (hn : n ≠ 0) :
    median (List.replicate n x) = x := by
  simp only [median, sortQ_replicate, List.length_replicate]
  rw [if_neg hn]
  split_ifs with hodd
  · rw [get?_replicate_of_lt x n (n / 2) (by omega)]
    rfl
  · rw [get?_replicate_of_lt x n (n / 2 - 1) (by omega),
      get?_replicate_of_lt x n (n / 2) (by omega)]
    show (x + x) / 2 = x
    ring

theorem popVar_replicate (x : ℚ) (n : Nat) (hn : n ≠ 0) :
    popVar (List.replicate n x) = 0 := by
  rw [popVar, mean_replicate x n hn, List.map_replicate]
  simp

theorem minList_replicate (x : ℚ) (n : Nat) (hn : n ≠ 0) :
    minList (List.replicate n x) = x := by
  obtain ⟨m, rfl⟩ : ∃ m, n = m + 1 := ⟨n - 1, by omega⟩
  rw [List.replicate_succ]
  show (List.replicate m x).foldl min x = x
  exact foldl_min_replicate x m

theorem maxList_replicate (x : ℚ) (n : Nat) (hn : n ≠ 0) :
    maxList (List.replicate n x) = x := by
  obtain ⟨m, rfl⟩ : ∃ m, n = m + 1 := ⟨n - 1, by omega⟩
  rw [List.replicate_succ]
  show (List.replicate m x).foldl max x = x
  exact foldl_max_replicate x m

/-- C6: for every constant series (in particular every series of length 1)
the summarizer reports `mean = median = min = max =` the constant close and
`std = 0`. -/
theorem C6_constant_series_statistics (x : ℚ) (n : Nat) (hn : 0 < n) :
    (priceStatistics (List.replicate n x)).mean = x
  ∧ (priceStatistics (List.replicate n x)).median = x
  ∧ (priceStatistics (List.replicate n x)).min = x
  ∧ (priceStatistics (List.replicate n x)).max = x
  ∧ (priceStatistics (List.replicate n x)).std = 0 := by
  have hn0 : n ≠ 0 := hn.ne'
  refine ⟨?_, ?_, ?_, ?_, ?_⟩
  · exact mean_replicate x n hn0
  · exact median_replicate x n hn0
  · exact minList_replicate x n hn0
  · exact maxList_replicate x n hn0
  · show stdPop (List.replicate n x) = 0
    rw [stdPop, popVar_replicate x n hn0]
    simp

/-- C6 witness: the spec scenarios — the constant series `[10, 10, 10]`
and the single-close series `[50]`. -/
theorem C6_witness :
    (priceStatistics [10, 10, 10]).mean = 10
  ∧ (priceStatistics [10, 10, 10]).median = 10
  ∧ (priceStatistics [10, 10, 10]).min = 10
  ∧ (priceStatistics [10, 10, 10]).max = 10
  ∧ (priceStatistics [10, 10, 10]).std = 0
  ∧ (priceStatistics [50]).mean = 50
  ∧ (priceStatistics [50]).std = 0 := by
  have h3 := C6_constant_series_statistics 10 3 (by norm_num)
  have h1 := C6_constant_series_statistics 50 1 (by norm_num)
  exact ⟨h3.1, h3.2.1, h3.2.2.1, h3.2.2.2.1, h3.2.2.2.2, h1.1, h1.2.2.2.2⟩

/-- C7: on a validated series, `assemble` succeeds with `current_price`
equal to the last bar's close, echoes the series back as
`historical_prices`, and passes the company metadata through unmodified;
an input that is already a sorted PriceSeries is echoed exactly. -/
theorem C7_assemble_passthrough (bars s : List PriceBar) (info : CompanyInfo)
    (h : validate bars = .ok s) :
    assemble bars info = .ok (computeAnalysis s info)
  ∧ (computeAnalysis s info).historical_prices = s
  ∧ (computeAnalysis s info).company_info = info
  ∧ (∀ b, s.getLast? = some b → (computeAnalysis s info).current_price = b.close)
  ∧ (List.Sorted (fun a b : PriceBar => a.date ≤ b.date) bars → s = bars) := by
  refine ⟨by simp [assemble, h, Except.map], rfl, rfl, ?_, ?_⟩
  · intro b hb
    show ((closesOf s).getLast?).getD 0 = b.close
    rw [closesOf, List.getLast?_map, hb]
    rfl
  · intro hs
    rw [validate_ok_eq bars s h, sortByDate]
    exact List.Sorted.insertionSort_eq hs

/-- C7 witness: the concrete two-bar sorted series is echoed back with its
metadata and its last close as `current_price`. -/
theorem C7_witness :
    (computeAnalysis [sampleBar1, sampleBar2] sampleInfo).company_info = sampleInfo
  ∧ (computeAnalysis [sampleBar1, sampleBar2] sampleInfo).historical_prices
      = [sampleBar1, sampleBar2]
  ∧ (computeAnalysis [sampleBar1, sampleBar2] sampleInfo).current_price
      = sampleBar2.close := by
  have h := C7_assemble_passthrough [sampleBar1, sampleBar2]
    [sampleBar1, sampleBar2] sampleInfo rfl
  exact ⟨h.2.2.1, h.2.1, h.2.2.2.1 sampleBar2 rfl⟩

theorem jsIndex_neg (l : List PriceBar) (i : Int) (h : i < 0) :
    jsIndex l i = none := by
  rw [jsIndex, if_pos h]

theorem jsIndex_nonneg (l : List PriceBar) (i : Int) (h : 0 ≤ i) :
    jsIndex l i = l.get? i.toNat := by
  rw [jsIndex, if_neg (by omega)]

/-- C9: `getStockInfo` requires at least 2 historical bars — with fewer it
fails (reads a missing array element) instead of returning a value; with
at least 2 bars it returns `change = lastClose - prevClose` and
`changePercent = change / prevClose * 100` (api.ts lines 102–110). -/
theorem C9_getStockInfo_requires_two_bars (a : BackendAnalysis) :
    (getStockInfo a = none ↔ a.historical_prices.length < 2)
  ∧ (2 ≤ a.historical_prices.length →
      ∀ lastBar prevBar,
        a.historical_prices.get? (a.historical_prices.length - 1) = some lastBar →
        a.historical_prices.get? (a.historical_prices.length - 2) = some prevBar →
        ∃ sd, getStockInfo a = some sd
          ∧ sd.change = lastBar.close - prevBar.close
          ∧ sd.changePercent = (lastBar.close - prevBar.close) / prevBar.close * 100) := by
  by_cases hlen : 2 ≤ a.historical_prices.length
  · obtain ⟨lb, hlb⟩ : ∃ y,
        a.historical_prices.get? (a.historical_prices.length - 1) = some y := by
      rw [List.get?_eq_getElem?, List.getElem?_eq_getElem (by omega)]
      exact ⟨_, rfl⟩
    obtain ⟨pb, hpb⟩ : ∃ y,
        a.historical_prices.get? (a.historical_prices.length - 2) = some y := by
      rw [List.get?_eq_getElem?, List.getElem?_eq_getElem (by omega)]
      exact ⟨_, rfl⟩
    have heval : getStockInfo a = some
        { symbol := a.ticker
          name := a.company_name
          price := a.current_price
          change := lb.close - pb.close
          changePercent := (lb.close - pb.close) / pb.close * 100
          sector := a.company_info.sector
          industry := a.company_info.industry
          marketCap := a.company_info.market_cap
          fiftyTwoWeekHigh := a.company_info.fifty_two_week_high
          fiftyTwoWeekLow := a.company_info.fifty_two_week_low
          volume := a.volume
          avgVolume := (a.historical_prices.map PriceBar.volume).sum
            / a.historical_prices.length } := by
      simp only [getStockInfo]
      rw [jsIndex_nonneg _ _ (by omega), jsIndex_nonneg _ _ (by omega),
        show ((a.historical_prices.length : Int) - 1).toNat
          = a.historical_prices.length - 1 by omega,
        show ((a.historical_prices.length : Int) - 2).toNat
          = a.historical_prices.length - 2 by omega,
        hlb, hpb]
    constructor
    · exact iff_of_false (by simp [heval]) (by omega)
    · intro _ lastBar prevBar hl hp
      obtain rfl : lb = lastBar := Option.some.inj (hlb.symm.trans hl)
      obtain rfl : pb = prevBar := Option.some.inj (hpb.symm.trans hp)
      exact ⟨_, heval, rfl, rfl⟩
  · have h2 : jsIndex a.historical_prices ((a.historical_prices.length : Int) - 2)
        = none := jsIndex_neg _ _ (by omega)
    have hnone : getStockInfo a = none := by
      simp only [getStockInfo]
      rw [h2]
      cases hx : jsIndex a.historical_prices
          ((a.historical_prices.length : Int) - 1) <;> rfl
    refine ⟨iff_of_true hnone (by omega), fun h2b => absurd h2b hlen⟩

/-- C9 witness: a single-bar response fails, and the concrete two-bar
response yields the daily change `12 - 11` and its percentage. -/
theorem C9_witness :
    getStockInfo sampleAnalysisOneBar = none
  ∧ (∃ sd, getStockInfo sampleAnalysis = some sd
      ∧ sd.change = sampleBar2.close - sampleBar1.close
      ∧ sd.changePercent
          = (sampleBar2.close - sampleBar1.close) / sampleBar1.close * 100) :=
  ⟨(C9_getStockInfo_requires_two_bars sampleAnalysisOneBar).1.2 (by decide),
   (C9_getStockInfo_requires_two_bars sampleAnalysis).2 (by decide)
     sampleBar2 sampleBar1 rfl rfl⟩

end StockAnalysis
